import Mathlib

/-!
Verification of the kinematics core of `general_robotics_toolbox.py`
(serial-chain forward kinematics, Jacobian assembly, and the Paden-Kahan
geometric subproblems 0-3).

The Python source works on dynamically shaped numpy float arrays; the
embedding uses exact real arithmetic over fixed 3-vectors (`Fin 3 → ℝ`).
Machine epsilon (`np.finfo(np.float64).eps = 2⁻⁵²`) is kept as the exact
rational constant the code compares against.  Python `assert` failures
(AssertionError) are modelled as `Except.error`; `warnings.warn` calls are
modelled as a list of warning strings returned alongside the value.
-/

noncomputable section

open scoped Classical

abbrev V3 : Type := Fin 3 → ℝ

abbrev V6 : Type := Fin 6 → ℝ

abbrev Mat3 : Type := Matrix (Fin 3) (Fin 3) ℝ

/-- Componentwise dot product of two 3-vectors (`np.dot` on 3-vectors). -/
def dotV (a b : V3) : ℝ := a 0 * b 0 + a 1 * b 1 + a 2 * b 2

/-- Euclidean norm (`np.linalg.norm` on a 3-vector). -/
def vnorm (v : V3) : ℝ := Real.sqrt (dotV v v)

/-- `hat(k)`: the 3 x 3 cross product matrix of the source. -/
def hat (k : V3) : Mat3 :=
  !![0, -(k 2), k 1;
     k 2, 0, -(k 0);
     -(k 1), k 0, 0]

/-- `rot(k, theta)`: Euler-Rodrigues rotation matrix
`I + sin(theta)*hat(k) + (1 - cos(theta))*hat(k)^2` of the source. -/
def rot (k : V3) (theta : ℝ) : Mat3 :=
  1 + Real.sin theta • hat k + (1 - Real.cos theta) • (hat k * hat k)

/-- `np.cross` on 3-vectors. -/
def cross (a b : V3) : V3 :=
  ![a 1 * b 2 - a 2 * b 1, a 2 * b 0 - a 0 * b 2, a 0 * b 1 - a 1 * b 0]

/-- `np.finfo(np.float64).eps` = 2⁻⁵², the double-precision machine epsilon
used by the subproblem degeneracy checks. -/
def eps : ℝ := 1 / 2 ^ 52

/-- `np.arctan2 y x` with the standard quadrant conventions
(both arguments are nonnegative at the single call site in `subproblem0`). -/
def atan2 (y x : ℝ) : ℝ :=
  if 0 < x then Real.arctan (y / x)
  else if x < 0 then
    (if 0 ≤ y then Real.arctan (y / x) + Real.pi else Real.arctan (y / x) - Real.pi)
  else
    (if 0 < y then Real.pi / 2 else if y < 0 then -(Real.pi / 2) else 0)

/-- `v / np.linalg.norm(v)` (normalization as written in the source). -/
def unitize (v : V3) : V3 := (vnorm v)⁻¹ • v

/-- `v - np.dot(v, k)*k`: the projection of `v` onto the plane normal to `k`
as computed by `subproblem1` and `subproblem3` (assumes `k` unit). -/
def projPerp (v k : V3) : V3 := v - (dotV v k) • k

/-- `subproblem0(p, q, k)` (source lines 392-426).  The one-sided
perpendicularity soft-check `np.dot(k,p) < eps and np.dot(k,q) < eps` is an
`assert`, so its failure is an `Except.error` (AssertionError). -/
def subproblem0 (p q k : V3) : Except String ℝ :=
  if dotV k p < eps ∧ dotV k q < eps then
    let ep := unitize p
    let eq := unitize q
    let theta := 2 * atan2 (vnorm (ep - eq)) (vnorm (ep + eq))
    if dotV k (cross p q) < 0 then Except.ok (-theta) else Except.ok theta
  else Except.error "k must be perpendicular to p and q"

/-- `subproblem1(p, q, k)` (source lines 428-464).  Returns the angle together
with the list of warnings emitted (`||p|| and ||q|| must be the same!!!` when
the norms differ by more than 1% of `||p||`). -/
def subproblem1 (p q k : V3) : Except String (ℝ × List String) :=
  if vnorm (p - q) < Real.sqrt eps then Except.ok (0, [])
  else
    match subproblem0 (unitize (projPerp p (unitize k)))
        (unitize (projPerp q (unitize k))) (unitize k) with
    | Except.error e => Except.error e
    | Except.ok theta =>
        Except.ok (theta,
          if |vnorm p - vnorm q| > vnorm p * 1e-2 then
            ["||p|| and ||q|| must be the same!!!"]
          else [])

lemma dotV_comm (a b : V3) : dotV a b = dotV b a := by
  unfold dotV; ring

lemma dotV_nonneg_self (a : V3) : 0 ≤ dotV a a := by
  unfold dotV
  nlinarith [mul_self_nonneg (a 0), mul_self_nonneg (a 1), mul_self_nonneg (a 2)]

lemma dotV_smul_right (a b : V3) (c : ℝ) : dotV a (c • b) = c * dotV a b := by
  unfold dotV; simp [Pi.smul_apply, smul_eq_mul]; ring

lemma dotV_sub_smul (a b : V3) (c : ℝ) :
    dotV a (b - c • a) = dotV a b - c * dotV a a := by
  unfold dotV; simp [Pi.sub_apply, Pi.smul_apply, smul_eq_mul]; ring

lemma eps_pos : 0 < eps := by unfold eps; norm_num

/-- If the self dot product vanishes then each component vanishes. -/
lemma dotV_self_eq_zero {k : V3} (h : dotV k k = 0) :
    k 0 = 0 ∧ k 1 = 0 ∧ k 2 = 0 := by
  unfold dotV at h
  refine ⟨?_, ?_, ?_⟩ <;> nlinarith [sq_nonneg (k 0), sq_nonneg (k 1), sq_nonneg (k 2)]

lemma dotV_unitize_self {k : V3} (h : dotV k k ≠ 0) :
    dotV (unitize k) (unitize k) = 1 := by
  have hnn : 0 ≤ dotV k k := dotV_nonneg_self k
  have hpos : 0 < dotV k k := lt_of_le_of_ne hnn (Ne.symm h)
  have hv : vnorm k * vnorm k = dotV k k := by
    unfold vnorm; exact Real.mul_self_sqrt hnn
  have hvnz : vnorm k ≠ 0 := by
    unfold vnorm
    exact ne_of_gt (Real.sqrt_pos.mpr hpos)
  unfold unitize dotV at *
  field_simp
  linarith [hv]

/-- The normalized axis is exactly perpendicular (in real arithmetic) to the
projection of any vector onto its normal plane. -/
lemma dotV_unitize_projPerp (v k : V3) :
    dotV (unitize k) (projPerp v (unitize k)) = 0 := by
  unfold projPerp
  rw [dotV_sub_smul]
  by_cases h : dotV k k = 0
  · obtain ⟨h0, h1, h2⟩ := dotV_self_eq_zero h
    unfold unitize dotV
    simp [Pi.smul_apply, smul_eq_mul, h0, h1, h2]
  · rw [dotV_unitize_self h, dotV_comm]
    ring

/-- `subproblem0` succeeds whenever the soft-check passes. -/
lemma subproblem0_ok_of {p q k : V3} (h1 : dotV k p < eps) (h2 : dotV k q < eps) :
    ∃ t, subproblem0 p q k = Except.ok t := by
  unfold subproblem0
  rw [if_pos ⟨h1, h2⟩]
  by_cases hs : dotV k (cross p q) < 0
  · exact ⟨_, if_pos hs⟩
  · exact ⟨_, if_neg hs⟩

/-- In exact real arithmetic `subproblem1` always returns a value: the inner
`subproblem0` call receives projections exactly perpendicular to the
normalized axis, so its soft-check always passes. -/
lemma subproblem1_ok (p q k : V3) :
    ∃ t w, subproblem1 p q k = Except.ok (t, w) := by
  unfold subproblem1
  by_cases h0 : vnorm (p - q) < Real.sqrt eps
  · rw [if_pos h0]; exact ⟨0, [], rfl⟩
  · rw [if_neg h0]
    have hp : dotV (unitize k) (unitize (projPerp p (unitize k))) < eps := by
      unfold unitize
      rw [dotV_smul_right]
      rw [show projPerp p ((vnorm k)⁻¹ • k) = projPerp p (unitize k) from rfl]
      rw [show (vnorm k)⁻¹ • k = unitize k from rfl]
      rw [dotV_unitize_projPerp]
      simpa using eps_pos
    have hq : dotV (unitize k) (unitize (projPerp q (unitize k))) < eps := by
      unfold unitize
      rw [dotV_smul_right]
      rw [show projPerp q ((vnorm k)⁻¹ • k) = projPerp q (unitize k) from rfl]
      rw [show (vnorm k)⁻¹ • k = unitize k from rfl]
      rw [dotV_unitize_projPerp]
      simpa using eps_pos
    obtain ⟨t, ht⟩ := subproblem0_ok_of hp hq
    rw [ht]
    exact ⟨t, _, rfl⟩

/-- `k12 = np.dot(k1, k2)` in `subproblem2`. -/
def sp2k12 (k1 k2 : V3) : ℝ := dotV k1 k2

/-- The pair `a = [[k12,-1],[-1,k12]]·[pk,qk] / (k12²-1)` of `subproblem2`
(source line 505). -/
def sp2a (p q k1 k2 : V3) : ℝ × ℝ :=
  ((sp2k12 k1 k2 * dotV p k2 - dotV q k1) / (sp2k12 k1 k2 ^ 2 - 1),
   (-(dotV p k2) + sp2k12 k1 k2 * dotV q k1) / (sp2k12 k1 k2 ^ 2 - 1))

/-- `bb` of `subproblem2` after the `if abs(bb) < eps: bb = 0` flush
(source lines 507-508). -/
def sp2bb (p q k1 k2 : V3) : ℝ :=
  let a := sp2a p q k1 k2
  let b := dotV p p - (a.1 ^ 2 + a.2 ^ 2) - 2 * a.1 * a.2 * sp2k12 k1 k2
  if |b| < eps then 0 else b

/-- `gamma = sqrt(bb) / norm(cross(k1, k2))` (source line 514). -/
def sp2gamma (p q k1 k2 : V3) : ℝ :=
  Real.sqrt (sp2bb p q k1 k2) / vnorm (cross k1 k2)

/-- The auxiliary vector `c = [k1 k2 k1×k2]·[a0, a1, g]` built by
`subproblem2` for `g = ±gamma` (source lines 516-524). -/
def sp2c (p q k1 k2 : V3) (g : ℝ) : V3 :=
  (sp2a p q k1 k2).1 • k1 + (sp2a p q k1 k2).2 • k2 + g • cross k1 k2

/-- `subproblem2(p, q, k1, k2)` (source lines 467-529): list of `(theta1,
theta2)` pairs plus the warnings emitted, in execution order. -/
def subproblem2 (p q k1 k2 : V3) :
    Except String (List (ℝ × ℝ) × List String) :=
  if |1 - sp2k12 k1 k2 ^ 2| < eps then
    Except.ok ([], ["No solution - k1 != k2"])
  else if sp2bb p q k1 k2 < 0 then
    Except.ok ([], ["No solution - no intersection found between cones"])
  else if |sp2gamma p q k1 k2| < eps then
    match subproblem1 k2 p (sp2c p q k1 k2 (sp2gamma p q k1 k2)) with
    | Except.error e => Except.error e
    | Except.ok (t2, w2) =>
      match subproblem1 k1 q (sp2c p q k1 k2 (sp2gamma p q k1 k2)) with
      | Except.error e => Except.error e
      | Except.ok (t1, w1) => Except.ok ([(-t1, t2)], w2 ++ w1)
  else
    match subproblem1 q (sp2c p q k1 k2 (sp2gamma p q k1 k2)) k1 with
    | Except.error e => Except.error e
    | Except.ok (t11, wa) =>
      match subproblem1 q (sp2c p q k1 k2 (-sp2gamma p q k1 k2)) k1 with
      | Except.error e => Except.error e
      | Except.ok (t12, wb) =>
        match subproblem1 p (sp2c p q k1 k2 (sp2gamma p q k1 k2)) k2 with
        | Except.error e => Except.error e
        | Except.ok (t21, wc) =>
          match subproblem1 p (sp2c p q k1 k2 (-sp2gamma p q k1 k2)) k2 with
          | Except.error e => Except.error e
          | Except.ok (t22, wd) =>
            Except.ok ([(-t11, t21), (-t12, t22)], wa ++ wb ++ wc ++ wd)

/-- `dpsq = d**2 - (np.dot(k, p+q))**2` of `subproblem3` (source line 558). -/
def sp3dpsq (p q k : V3) (d : ℝ) : ℝ := d ^ 2 - dotV k (p + q) ^ 2

/-- The law-of-cosines ratio `bb` of `subproblem3` (source line 560). -/
def sp3bb (p q k : V3) (d : ℝ) : ℝ :=
  -(dotV (projPerp p k) (projPerp p k) + dotV (projPerp q k) (projPerp q k)
      - sp3dpsq p q k d) /
    (2 * vnorm (projPerp p k) * vnorm (projPerp q k))

/-- `subproblem3(p, q, k, d)` (source lines 531-572): list of angles plus the
warnings emitted. -/
def subproblem3 (p q k : V3) (d : ℝ) :
    Except String (List ℝ × List String) :=
  if sp3dpsq p q k d < 0 ∨ |sp3bb p q k d| > 1 then
    Except.ok ([], ["No solution - no rotation can achieve specified distance"])
  else
    match subproblem1 (unitize (projPerp p k)) (unitize (projPerp q k)) k with
    | Except.error e => Except.error e
    | Except.ok (theta, w) =>
      let phi := Real.arccos (sp3bb p q k d)
      if |phi| > 0 then Except.ok ([theta + phi, theta - phi], w)
      else Except.ok ([theta], w)

/-- `subproblem2` always returns a value in exact real arithmetic. -/
lemma subproblem2_ok (p q k1 k2 : V3) :
    ∃ v, subproblem2 p q k1 k2 = Except.ok v := by
  unfold subproblem2
  by_cases h1 : |1 - sp2k12 k1 k2 ^ 2| < eps
  · rw [if_pos h1]; exact ⟨_, rfl⟩
  · rw [if_neg h1]
    by_cases h2 : sp2bb p q k1 k2 < 0
    · rw [if_pos h2]; exact ⟨_, rfl⟩
    · rw [if_neg h2]
      by_cases h3 : |sp2gamma p q k1 k2| < eps
      · rw [if_pos h3]
        obtain ⟨t2, w2, h4⟩ := subproblem1_ok k2 p (sp2c p q k1 k2 (sp2gamma p q k1 k2))
        obtain ⟨t1, w1, h5⟩ := subproblem1_ok k1 q (sp2c p q k1 k2 (sp2gamma p q k1 k2))
        rw [h4, h5]
        exact ⟨_, rfl⟩
      · rw [if_neg h3]
        obtain ⟨t11, wa, h4⟩ := subproblem1_ok q (sp2c p q k1 k2 (sp2gamma p q k1 k2)) k1
        obtain ⟨t12, wb, h5⟩ := subproblem1_ok q (sp2c p q k1 k2 (-sp2gamma p q k1 k2)) k1
        obtain ⟨t21, wc, h6⟩ := subproblem1_ok p (sp2c p q k1 k2 (sp2gamma p q k1 k2)) k2
        obtain ⟨t22, wd, h7⟩ := subproblem1_ok p (sp2c p q k1 k2 (-sp2gamma p q k1 k2)) k2
        rw [h4, h5, h6, h7]
        exact ⟨_, rfl⟩

/-- `subproblem3` always returns a value in exact real arithmetic. -/
lemma subproblem3_ok (p q k : V3) (d : ℝ) :
    ∃ v, subproblem3 p q k d = Except.ok v := by
  unfold subproblem3
  by_cases h1 : sp3dpsq p q k d < 0 ∨ |sp3bb p q k d| > 1
  · rw [if_pos h1]; exact ⟨_, rfl⟩
  · rw [if_neg h1]
    obtain ⟨t, w, h2⟩ := subproblem1_ok (unitize (projPerp p k)) (unitize (projPerp q k)) k
    rw [h2]
    dsimp only
    by_cases h3 : |Real.arccos (sp3bb p q k d)| > 0
    · rw [if_pos h3]; exact ⟨_, rfl⟩
    · rw [if_neg h3]; exact ⟨_, rfl⟩

/-- The `Robot` data container (source lines 210-269).  `H` holds the N joint
axis columns, `P` the N+1 offset columns; inertia matrices are kept as raw
nested lists because the constructor checks their shape dynamically. -/
structure Robot where
  H : List V3
  P : List V3
  joint_type : List ℕ
  joint_min : Option (List ℝ)
  joint_max : Option (List ℝ)
  M : Option (List (List (List ℝ)))

/-- The `Pose` data container (source lines 272-295). -/
structure Pose where
  R : Mat3
  p : V3

/-- `Pose.__mul__` (source lines 297-300). -/
def poseMul (a b : Pose) : Pose := ⟨a.R * b.R, a.p + a.R.mulVec b.p⟩

/-- The shape check on a supplied inertia list: `len(M) == N` and every
member `6 x 6` (source lines 261-264). -/
def inertiaOk (M : Option (List (List (List ℝ)))) (n : ℕ) : Prop :=
  match M with
  | none => True
  | some ms => ms.length = n ∧ ∀ m ∈ ms, m.length = 6 ∧ ∀ row ∈ m, row.length = 6

/-- `Robot.__init__` (source lines 224-269).  The `assert` statements are
collected into one guard (each failure raises AssertionError); `np.isclose(x, 1)`
is `|x - 1| ≤ atol + rtol*|1|` with numpy defaults `atol = 1e-8`,
`rtol = 1e-5`.  When only one of `joint_min`/`joint_max` is supplied, both
are stored as `None` (source lines 254-259). -/
def mkRobot (H P : List V3) (joint_type : List ℕ)
    (joint_min joint_max : Option (List ℝ))
    (M : Option (List (List (List ℝ)))) : Except String Robot :=
  if (∀ h ∈ H, |vnorm h - 1| ≤ 1e-8 + 1e-5 * 1) ∧
     (∀ t ∈ joint_type, t = 0 ∨ t = 1 ∨ t = 2 ∨ t = 3) ∧
     (H.length + 1 = P.length ∧ H.length = joint_type.length) ∧
     inertiaOk M H.length then
    Except.ok
      ⟨H, P, joint_type,
        (match joint_min, joint_max with
          | some a, some _ => some a
          | _, _ => none),
        (match joint_min, joint_max with
          | some _, some b => some b
          | _, _ => none),
        M⟩
  else Except.error "ValidationError"

/-- The joint-limit check of `fwdkin`/`robotjacobian`:
`np.greater_equal(theta, joint_min).all()` and
`np.less_equal(theta, joint_max).all()` for equal-length arrays. -/
def limitsOk (mn mx th : List ℝ) : Prop :=
  (∀ i, i < th.length → i < mn.length → mn.getD i 0 ≤ th.getD i 0) ∧
  (∀ i, i < th.length → i < mx.length → th.getD i 0 ≤ mx.getD i 0)

/-- The joint-chain walk of `fwdkin` (source lines 319-326), one step per
joint: `R ← R·rot(H[i], theta[i])` for types 0 and 2,
`p ← p + theta[i]·R·H[i]` for types 1 and 3, then `p ← p + R·P[i+1]`. -/
def fkRun : List ℕ → List V3 → List ℝ → List V3 → Mat3 → V3 → Mat3 × V3
  | t :: ts, h :: hs, th :: ths, po :: pos, R, p =>
    let R2 := if t = 0 ∨ t = 2 then R * rot h th else R
    let p2 := if t = 1 ∨ t = 3 then p + th • R.mulVec h else p
    fkRun ts hs ths pos R2 (p2 + R2.mulVec po)
  | _, _, _, _, R, p => (R, p)

/-- `fwdkin(robot, theta)` (source lines 302-327).  The out-of-range
`assert` raises before the walk starts; it only runs when both limits are
stored. -/
def fwdkin (r : Robot) (theta : List ℝ) : Except String Pose :=
  match r.joint_min, r.joint_max with
  | some mn, some mx =>
    if limitsOk mn mx theta then
      Except.ok ⟨(fkRun r.joint_type r.H theta r.P.tail 1 (r.P.headD 0)).1,
                 (fkRun r.joint_type r.H theta r.P.tail 1 (r.P.headD 0)).2⟩
    else Except.error "Specified joints out of range"
  | _, _ =>
    Except.ok ⟨(fkRun r.joint_type r.H theta r.P.tail 1 (r.P.headD 0)).1,
               (fkRun r.joint_type r.H theta r.P.tail 1 (r.P.headD 0)).2⟩

/-- The first pass of `robotjacobian` (source lines 351-367): the same walk
as `fwdkin`, additionally recording `hi[i] = R·H[i]` (with `R` already
updated for joint i) and `pOi[i+1] = p`; the final component is the tool
position `pOT`. -/
def jacPass1 : List ℕ → List V3 → List ℝ → List V3 → Mat3 → V3 →
    List V3 × List V3 × V3
  | t :: ts, h :: hs, th :: ths, po :: pos, R, p =>
    let R2 := if t = 0 ∨ t = 2 then R * rot h th else R
    let p2 := if t = 1 ∨ t = 3 then p + th • R.mulVec h else p
    let p3 := p2 + R2.mulVec po
    let rest := jacPass1 ts hs ths pos R2 p3
    (R2.mulVec h :: rest.1, p3 :: rest.2.1, rest.2.2)
  | _, _, _, _, _, p => ([], [], p)

/-- A Jacobian column `[a; b]` (angular rows 0-2, linear rows 3-5). -/
def mkCol6 (a b : V3) : V6 := ![a 0, a 1, a 2, b 0, b 1, b 2]

/-- Overwrite the linear rows 3-5 of a column (`J[3:6,[j]] = b`). -/
def setLin (c : V6) (b : V3) : V6 := ![c 0, c 1, c 2, b 0, b 1, b 2]

/-- The column-assembly loop of `robotjacobian` (source lines 371-388).  `J`
is the list of columns of the 6 x (current width) matrix.  Out-of-range numpy
fancy indexing (`hi[:,[i+2]]`, `theta[i+2]`, `pOi[:,[i+2]]` in the type-3
branch) raises IndexError, modelled as `Except.error`.  (`List.set` ignores
an out-of-range column write; starting from `i = j = 0` with `J` of width
`len(joint_type)` every write the loop reaches is in range whenever the
type-3 reads are, so this matches the numpy behaviour on every reachable
state.)  In the type-3 branch the code writes `rot(hi[i+2], theta[i+2])·hi[i]`
into the LINEAR rows of column j, the rotational column into column j+1,
drops the last column (`J = J[:,0:-1]`), and continues at joint i+3, column
j+2 (`i += 2; j += 1` followed by the loop's own `i += 1; j += 1`). -/
def jLoop (hi pOi : List V3) (pOT : V3) (jt : List ℕ) (th : List ℝ)
    (i j : ℕ) (J : List V6) : Except String (List V6) :=
  if hlt : i < jt.length then
    let t := jt.get ⟨i, hlt⟩
    if t = 0 then
      match hi.get? i, pOi.get? i with
      | some h, some po =>
        jLoop hi pOi pOT jt th (i + 1) (j + 1)
          (J.set j (mkCol6 h ((hat h).mulVec (pOT - po))))
      | _, _ => Except.error "index out of range"
    else if t = 1 then
      match hi.get? i with
      | some h =>
        jLoop hi pOi pOT jt th (i + 1) (j + 1) (J.set j (setLin (J.getD j 0) h))
      | none => Except.error "index out of range"
    else if t = 3 then
      match hi.get? (i + 2), th.get? (i + 2), hi.get? i, pOi.get? (i + 2) with
      | some h2, some t2, some h0, some po2 =>
        jLoop hi pOi pOT jt th (i + 3) (j + 2)
          (((J.set j (setLin (J.getD j 0) ((rot h2 t2).mulVec h0))).set (j + 1)
              (mkCol6 h2 ((hat h2).mulVec (pOT - po2)))).dropLast)
      | _, _, _, _ => Except.error "index out of range"
    else jLoop hi pOi pOT jt th (i + 1) (j + 1) J
  else Except.ok J
termination_by jt.length - i
decreasing_by all_goals omega

/-- `robotjacobian` minus its limit check (source lines 348-389). -/
def robotjacobianCore (r : Robot) (theta : List ℝ) : Except String (List V6) :=
  let pr := jacPass1 r.joint_type r.H theta r.P.tail 1 (r.P.headD 0)
  jLoop pr.1 (r.P.headD 0 :: pr.2.1) pr.2.2 r.joint_type theta 0 0
    (List.replicate r.joint_type.length 0)

/-- `robotjacobian(robot, theta)` (source lines 330-389), returning the list
of columns of the assembled Jacobian. -/
def robotjacobian (r : Robot) (theta : List ℝ) : Except String (List V6) :=
  match r.joint_min, r.joint_max with
  | some mn, some mx =>
    if limitsOk mn mx theta then robotjacobianCore r theta
    else Except.error "Specified joints out of range"
  | _, _ => robotjacobianCore r theta

/-- The tool position `pOT` accumulated by `robotjacobian`'s first pass,
behind the same limit guard as `robotjacobian` itself. -/
def robotjacobianToolPos (r : Robot) (theta : List ℝ) : Except String V3 :=
  match r.joint_min, r.joint_max with
  | some mn, some mx =>
    if limitsOk mn mx theta then
      Except.ok (jacPass1 r.joint_type r.H theta r.P.tail 1 (r.P.headD 0)).2.2
    else Except.error "Specified joints out of range"
  | _, _ =>
    Except.ok (jacPass1 r.joint_type r.H theta r.P.tail 1 (r.P.headD 0)).2.2

/-- The per-joint rigid transform of the spec's product-of-exponentials
description: a rotation about the joint axis for rotary-kind joints, a
translation along it for prismatic-kind joints. -/
def jointStepPose (t : ℕ) (h : V3) (th : ℝ) : Pose :=
  if t = 0 ∨ t = 2 then ⟨rot h th, 0⟩
  else if t = 1 ∨ t = 3 then ⟨1, th • h⟩
  else ⟨1, 0⟩

/-- The forward-kinematics walk as the spec words it: compose, in chain
order, the joint transform and then the offset translation `P[i+1]`, as Pose
products. -/
def fwdkinSpec : List ℕ → List V3 → List ℝ → List V3 → Pose → Pose
  | t :: ts, h :: hs, th :: ths, po :: pos, A =>
    fwdkinSpec ts hs ths pos (poseMul (poseMul A (jointStepPose t h th)) ⟨1, po⟩)
  | _, _, _, _, A => A

lemma rot_zero (k : V3) : rot k 0 = 1 := by
  unfold rot
  simp

/-- One joint step of the code's walk agrees with the Pose-composition step
of the spec's product-of-exponentials description. -/
lemma poseStep_eq (t : ℕ) (h po : V3) (th : ℝ) (R : Mat3) (p : V3) :
    poseMul (poseMul ⟨R, p⟩ (jointStepPose t h th)) ⟨1, po⟩ =
      ⟨(if t = 0 ∨ t = 2 then R * rot h th else R),
       ((if t = 1 ∨ t = 3 then p + th • R.mulVec h else p) +
          (if t = 0 ∨ t = 2 then R * rot h th else R).mulVec po)⟩ := by
  unfold poseMul jointStepPose
  by_cases h02 : t = 0 ∨ t = 2
  · have h13 : ¬(t = 1 ∨ t = 3) := by omega
    simp only [if_pos h02, if_neg h13]
    simp [Matrix.mulVec_zero]
  · simp only [if_neg h02]
    by_cases h13 : t = 1 ∨ t = 3
    · simp only [if_pos h13]
      simp [Matrix.mulVec_smul]
    · simp only [if_neg h13]
      simp [Matrix.mulVec_zero]

lemma fkRun_eq_fwdkinSpec (ts : List ℕ) :
    ∀ (hs : List V3) (ths : List ℝ) (pos : List V3) (R : Mat3) (p : V3),
      fkRun ts hs ths pos R p =
        ((fwdkinSpec ts hs ths pos ⟨R, p⟩).R, (fwdkinSpec ts hs ths pos ⟨R, p⟩).p) := by
  induction ts with
  | nil => intro hs ths pos R p; rfl
  | cons t ts ih =>
    intro hs ths pos R p
    cases hs with
    | nil => rfl
    | cons h hs =>
      cases ths with
      | nil => rfl
      | cons th ths =>
        cases pos with
        | nil => rfl
        | cons po pos =>
          simp only [fkRun, fwdkinSpec]
          rw [poseStep_eq]
          exact ih hs ths pos _ _

lemma jacPass1_toolPos (ts : List ℕ) :
    ∀ (hs : List V3) (ths : List ℝ) (pos : List V3) (R : Mat3) (p : V3),
      (jacPass1 ts hs ths pos R p).2.2 = (fkRun ts hs ths pos R p).2 := by
  induction ts with
  | nil => intro hs ths pos R p; rfl
  | cons t ts ih =>
    intro hs ths pos R p
    cases hs with
    | nil => rfl
    | cons h hs =>
      cases ths with
      | nil => rfl
      | cons th ths =>
        cases pos with
        | nil => rfl
        | cons po pos =>
          simp only [jacPass1, fkRun]
          exact ih hs ths pos _ _

/-- C1: `fwdkin` walks the joints in order from `R = I`, `p = offsets[0]`,
multiplying `R` by `rot(axes[i], theta[i])` for Rotary (0) and
MobilePlanarRotational (2) joints, translating `p` by `theta[i]·R·axes[i]`
for Prismatic (1) and MobilePlanarTranslational (3) joints, and always adding
`R·offsets[i+1]` — i.e. it computes the spec's product-of-exponentials Pose
composition; and on the 2-link planar rotary chain with
`axes=[[0,0,1],[0,0,1]]`, `offsets=[[0,0,0],[1,0,0],[1,0,0]]`,
`theta=[0, pi/2]` it returns tool position `[1,1,0]` and rotation
`rot([0,0,1], pi/2)`. -/
theorem c1_fwdkin_walk_and_planar_example :
    (∀ (ts : List ℕ) (hs : List V3) (ths : List ℝ) (pos : List V3) (R : Mat3) (p : V3),
        fkRun ts hs ths pos R p =
          ((fwdkinSpec ts hs ths pos ⟨R, p⟩).R, (fwdkinSpec ts hs ths pos ⟨R, p⟩).p)) ∧
    fwdkin ⟨[![0,0,1], ![0,0,1]], [0, ![1,0,0], ![1,0,0]], [0, 0], none, none, none⟩
        [0, Real.pi / 2] =
      Except.ok ⟨rot ![0,0,1] (Real.pi / 2), ![1,1,0]⟩ := by
  constructor
  · exact fkRun_eq_fwdkinSpec
  · have hrot : (rot ![0,0,1] (Real.pi/2)).mulVec ![1,0,0] = ![0,1,0] := by
      funext i
      unfold rot hat
      fin_cases i <;>
        simp [Matrix.mulVec, Matrix.dotProduct, Fin.sum_univ_three, Matrix.add_apply,
          Matrix.smul_apply, Matrix.one_apply, Matrix.mul_apply, Real.sin_pi_div_two,
          Real.cos_pi_div_two, Matrix.cons_val_zero, Matrix.cons_val_one, Matrix.head_cons,
          Matrix.cons_val_two, Matrix.head_fin_const, Matrix.cons_val', Matrix.empty_val']
    have hadd : (![1,0,0] : V3) + ![0,1,0] = ![1,1,0] := by
      funext i; fin_cases i <;> simp
    unfold fwdkin
    simp only [fkRun, rot_zero, one_mul, mul_one, Matrix.one_mulVec, Matrix.mulVec_zero,
      List.tail_cons, List.headD_cons, hrot, hadd, zero_add, add_zero]
    norm_num [fkRun, hrot, hadd]

/-- C8: the tool position `pOT` accumulated by `robotjacobian`'s first pass
agrees, behind the same limit guard, with the position component of the Pose
returned by `fwdkin` on the same inputs. -/
theorem c8_jacobian_pass_matches_fwdkin (r : Robot) (theta : List ℝ) :
    robotjacobianToolPos r theta = (fwdkin r theta).map Pose.p := by
  unfold robotjacobianToolPos fwdkin
  cases r.joint_min with
  | none => simp [Except.map, jacPass1_toolPos]
  | some mn =>
    cases r.joint_max with
    | none => simp [Except.map, jacPass1_toolPos]
    | some mx =>
      dsimp only
      by_cases hl : limitsOk mn mx theta
      · rw [if_pos hl, if_pos hl]
        simp [Except.map, jacPass1_toolPos]
      · rw [if_neg hl, if_neg hl]
        rfl

/-- C7: on a model with stored joint limits, a joint vector with some
component outside its `[min, max]` bound makes both `fwdkin` and
`robotjacobian` fail with the out-of-range error before any kinematic
computation, never returning a result. -/
theorem c7_limit_violation_rejected (r : Robot) (theta mn mx : List ℝ) (i : ℕ)
    (hmn : r.joint_min = some mn) (hmx : r.joint_max = some mx)
    (hviol : (i < theta.length ∧ i < mn.length ∧ theta.getD i 0 < mn.getD i 0) ∨
             (i < theta.length ∧ i < mx.length ∧ mx.getD i 0 < theta.getD i 0)) :
    fwdkin r theta = Except.error "Specified joints out of range" ∧
    robotjacobian r theta = Except.error "Specified joints out of range" := by
  have hnot : ¬ limitsOk mn mx theta := by
    rcases hviol with ⟨h1, h2, h3⟩ | ⟨h1, h2, h3⟩
    · rintro ⟨ha, -⟩
      exact absurd (ha i h1 h2) (not_le.mpr h3)
    · rintro ⟨-, hb⟩
      exact absurd (hb i h1 h2) (not_le.mpr h3)
  unfold fwdkin robotjacobian
  rw [hmn, hmx]
  dsimp only
  rw [if_neg hnot, if_neg hnot]
  exact ⟨rfl, rfl⟩

theorem c7_witness :
    fwdkin ⟨[![0,0,1]], [0, 0], [0], some [-1], some [1], none⟩ [2] =
        Except.error "Specified joints out of range" ∧
    robotjacobian ⟨[![0,0,1]], [0, 0], [0], some [-1], some [1], none⟩ [2] =
        Except.error "Specified joints out of range" :=
  c7_limit_violation_rejected _ [2] [-1] [1] 0 rfl rfl
    (Or.inr ⟨by norm_num, by norm_num, by norm_num⟩)

/-- C10: when only one of `joint_min`/`joint_max` is supplied to the
constructor, both are stored as `None`, and then neither `fwdkin` nor
`robotjacobian` performs any limit check: `fwdkin` always returns a Pose and
`robotjacobian` runs its unguarded core computation. -/
theorem c10_one_sided_limits_not_enforced
    (H P : List V3) (jt : List ℕ) (mn mx : Option (List ℝ))
    (M : Option (List (List (List ℝ)))) (r : Robot)
    (hmk : mkRobot H P jt mn mx M = Except.ok r)
    (hone : mn = none ∨ mx = none) :
    r.joint_min = none ∧ r.joint_max = none ∧
      ∀ theta : List ℝ,
        (∃ pose, fwdkin r theta = Except.ok pose) ∧
        robotjacobian r theta = robotjacobianCore r theta := by
  unfold mkRobot at hmk
  by_cases hc : (∀ h ∈ H, |vnorm h - 1| ≤ 1e-8 + 1e-5 * 1) ∧
      (∀ t ∈ jt, t = 0 ∨ t = 1 ∨ t = 2 ∨ t = 3) ∧
      (H.length + 1 = P.length ∧ H.length = jt.length) ∧ inertiaOk M H.length
  · rw [if_pos hc] at hmk
    have hr := (Except.ok.injEq _ _).mp hmk
    have hmin : r.joint_min = none := by
      rw [← hr]
      rcases hone with h | h
      · subst h; rfl
      · subst h; cases mn <;> rfl
    have hmax : r.joint_max = none := by
      rw [← hr]
      rcases hone with h | h
      · subst h; rfl
      · subst h; cases mn <;> rfl
    refine ⟨hmin, hmax, fun theta => ⟨?_, ?_⟩⟩
    · unfold fwdkin
      rw [hmin]
      exact ⟨_, rfl⟩
    · unfold robotjacobian
      rw [hmin]
  · rw [if_neg hc] at hmk
    exact absurd hmk (by simp)

theorem c10_witness :
    (⟨[![0,0,1]], [0, 0], [0], none, none, none⟩ : Robot).joint_min = none ∧
    (⟨[![0,0,1]], [0, 0], [0], none, none, none⟩ : Robot).joint_max = none ∧
    ∀ theta : List ℝ,
      (∃ pose,
          fwdkin ⟨[![0,0,1]], [0, 0], [0], none, none, none⟩ theta = Except.ok pose) ∧
      robotjacobian ⟨[![0,0,1]], [0, 0], [0], none, none, none⟩ theta =
        robotjacobianCore ⟨[![0,0,1]], [0, 0], [0], none, none, none⟩ theta := by
  have hnorm : vnorm ![0,0,1] = 1 := by
    unfold vnorm dotV
    norm_num
  refine c10_one_sided_limits_not_enforced [![0,0,1]] [0, 0] [0] (some [-1]) none none _
    ?_ (Or.inr rfl)
  unfold mkRobot
  rw [if_pos]
  refine ⟨?_, ?_, ⟨rfl, rfl⟩, trivial⟩
  · intro h hh
    rw [List.mem_singleton] at hh
    subst hh
    rw [hnorm]
    norm_num
  · intro t ht
    rw [List.mem_singleton] at ht
    subst ht
    exact Or.inl rfl

/-- C9 counterexample: an axis of norm `1 + 1e-6` is NOT unit-norm, yet the
constructor accepts it, because the source only checks
`np.isclose(norm, 1)` (tolerance `1e-8 + 1e-5`).  So "fails whenever any
axis column is not unit-norm" is false as stated. -/
theorem c9_counterexample :
    (∃ r, mkRobot [![1 + 1e-6, 0, 0]] [0, 0] [0] none none none = Except.ok r) ∧
    vnorm ![1 + 1e-6, 0, 0] ≠ 1 := by
  have hv : vnorm ![1 + 1e-6, 0, 0] = 1 + 1e-6 := by
    unfold vnorm dotV
    rw [show ((![1 + 1e-6, 0, 0] : V3) 0) = 1 + 1e-6 from rfl,
        show ((![1 + 1e-6, 0, 0] : V3) 1) = 0 from rfl,
        show ((![1 + 1e-6, 0, 0] : V3) 2) = 0 from rfl]
    rw [show (1 + 1e-6 : ℝ) * (1 + 1e-6) + 0 * 0 + 0 * 0 = (1 + 1e-6) ^ 2 by ring]
    exact Real.sqrt_sq (by norm_num)
  constructor
  · unfold mkRobot
    rw [if_pos]
    · exact ⟨_, rfl⟩
    refine ⟨?_, ?_, ⟨rfl, rfl⟩, trivial⟩
    · intro h hh
      rw [List.mem_singleton] at hh
      subst hh
      rw [hv]
      rw [show |1 + 1e-6 - (1:ℝ)| = 1e-6 by rw [abs_of_nonneg] <;> norm_num]
      norm_num
    · intro t ht
      rw [List.mem_singleton] at ht
      subst ht
      exact Or.inl rfl
  · rw [hv]
    norm_num

/-- C9 amended: construction succeeds exactly when the count invariants
hold, every axis norm is within the `np.isclose` tolerance of 1 (not
necessarily exactly unit), every joint type is in {0,1,2,3}, and any
supplied inertia list has one 6 x 6 member per joint; otherwise it fails
synchronously with a ValidationError. -/
theorem c9_construction_checks (H P : List V3) (jt : List ℕ)
    (mn mx : Option (List ℝ)) (M : Option (List (List (List ℝ)))) :
    (∃ r, mkRobot H P jt mn mx M = Except.ok r) ↔
      ((∀ h ∈ H, |vnorm h - 1| ≤ 1e-8 + 1e-5 * 1) ∧
       (∀ t ∈ jt, t = 0 ∨ t = 1 ∨ t = 2 ∨ t = 3) ∧
       (H.length + 1 = P.length ∧ H.length = jt.length) ∧ inertiaOk M H.length) := by
  unfold mkRobot
  by_cases hc : (∀ h ∈ H, |vnorm h - 1| ≤ 1e-8 + 1e-5 * 1) ∧
      (∀ t ∈ jt, t = 0 ∨ t = 1 ∨ t = 2 ∨ t = 3) ∧
      (H.length + 1 = P.length ∧ H.length = jt.length) ∧ inertiaOk M H.length
  · rw [if_pos hc]
    exact ⟨fun _ => hc, fun _ => ⟨_, rfl⟩⟩
  · rw [if_neg hc]
    exact ⟨fun ⟨r, hr⟩ => absurd hr (by simp), fun h => absurd h hc⟩

/-- C4 counterexample: `subproblem0` DOES raise (AssertionError) on malformed
geometry: with `p = q = k = [0,0,1]` the perpendicularity soft-check
`dot(k,p) < eps and dot(k,q) < eps` fails (`dot = 1`), so the claim that
subproblems 0-3 never raise on malformed geometry is false for subproblem0. -/
theorem c4_counterexample :
    subproblem0 ![0,0,1] ![0,0,1] ![0,0,1] =
      Except.error "k must be perpendicular to p and q" := by
  have hd : dotV ![0,0,1] ![0,0,1] = 1 := by unfold dotV; norm_num
  have hcond : ¬(dotV ![0,0,1] ![0,0,1] < eps ∧ dotV ![0,0,1] ![0,0,1] < eps) := by
    rw [hd]
    rintro ⟨h1, -⟩
    unfold eps at h1
    norm_num at h1
  unfold subproblem0
  rw [if_neg hcond]

/-- C4 amended: `subproblem0` returns a value exactly when its one-sided
perpendicularity soft-check `dot(k,p) < eps` and `dot(k,q) < eps` passes
(otherwise it raises an AssertionError), while `subproblem1`, `subproblem2`
and `subproblem3` always return in exact real arithmetic — degenerate and
no-solution cases are reported as an empty list plus a diagnostic warning,
never an exception. -/
theorem c4_subproblem_error_behaviour (p q k1 k2 : V3) (d : ℝ) :
    ((∃ t, subproblem0 p q k1 = Except.ok t) ↔
        (dotV k1 p < eps ∧ dotV k1 q < eps)) ∧
    (∃ v, subproblem1 p q k1 = Except.ok v) ∧
    (∃ v, subproblem2 p q k1 k2 = Except.ok v) ∧
    (∃ v, subproblem3 p q k1 d = Except.ok v) := by
  refine ⟨⟨?_, ?_⟩, ?_, ?_, ?_⟩
  · rintro ⟨t, ht⟩
    by_contra hc
    unfold subproblem0 at ht
    rw [if_neg hc] at ht
    exact absurd ht (by simp)
  · rintro ⟨h1, h2⟩
    exact subproblem0_ok_of h1 h2
  · obtain ⟨t, w, h⟩ := subproblem1_ok p q k1
    exact ⟨_, h⟩
  · exact subproblem2_ok p q k1 k2
  · exact subproblem3_ok p q k1 d

/-- C5: `subproblem2` returns empty-with-warning when `k1`, `k2` are
numerically parallel or when the (flushed) quadratic quantity `bb` is
negative; exactly one pair via two Subproblem-1 calls when `gamma` is
numerically zero; and otherwise exactly two pairs with the sign convention
`theta1 = -subproblem1(q, c, k1)`, `theta2 = +subproblem1(p, c, k2)` for the
auxiliary vectors built from `+gamma` and `-gamma`. -/
theorem c5_subproblem2_branches (p q k1 k2 : V3) :
    (|1 - sp2k12 k1 k2 ^ 2| < eps →
      subproblem2 p q k1 k2 = Except.ok ([], ["No solution - k1 != k2"])) ∧
    (¬ |1 - sp2k12 k1 k2 ^ 2| < eps → sp2bb p q k1 k2 < 0 →
      subproblem2 p q k1 k2 =
        Except.ok ([], ["No solution - no intersection found between cones"])) ∧
    (¬ |1 - sp2k12 k1 k2 ^ 2| < eps → ¬ sp2bb p q k1 k2 < 0 →
      |sp2gamma p q k1 k2| < eps →
      ∃ t2 w2 t1 w1,
        subproblem1 k2 p (sp2c p q k1 k2 (sp2gamma p q k1 k2)) = Except.ok (t2, w2) ∧
        subproblem1 k1 q (sp2c p q k1 k2 (sp2gamma p q k1 k2)) = Except.ok (t1, w1) ∧
        subproblem2 p q k1 k2 = Except.ok ([(-t1, t2)], w2 ++ w1)) ∧
    (¬ |1 - sp2k12 k1 k2 ^ 2| < eps → ¬ sp2bb p q k1 k2 < 0 →
      ¬ |sp2gamma p q k1 k2| < eps →
      ∃ t11 wa t12 wb t21 wc t22 wd,
        subproblem1 q (sp2c p q k1 k2 (sp2gamma p q k1 k2)) k1 = Except.ok (t11, wa) ∧
        subproblem1 q (sp2c p q k1 k2 (-sp2gamma p q k1 k2)) k1 = Except.ok (t12, wb) ∧
        subproblem1 p (sp2c p q k1 k2 (sp2gamma p q k1 k2)) k2 = Except.ok (t21, wc) ∧
        subproblem1 p (sp2c p q k1 k2 (-sp2gamma p q k1 k2)) k2 = Except.ok (t22, wd) ∧
        subproblem2 p q k1 k2 =
          Except.ok ([(-t11, t21), (-t12, t22)], wa ++ wb ++ wc ++ wd)) := by
  refine ⟨?_, ?_, ?_, ?_⟩
  · intro h1
    unfold subproblem2
    rw [if_pos h1]
  · intro h1 h2
    unfold subproblem2
    rw [if_neg h1, if_pos h2]
  · intro h1 h2 h3
    obtain ⟨t2, w2, e2⟩ := subproblem1_ok k2 p (sp2c p q k1 k2 (sp2gamma p q k1 k2))
    obtain ⟨t1, w1, e1⟩ := subproblem1_ok k1 q (sp2c p q k1 k2 (sp2gamma p q k1 k2))
    refine ⟨t2, w2, t1, w1, e2, e1, ?_⟩
    unfold subproblem2
    rw [if_neg h1, if_neg h2, if_pos h3, e2]
    dsimp only
    rw [e1]
  · intro h1 h2 h3
    obtain ⟨t11, wa, e11⟩ := subproblem1_ok q (sp2c p q k1 k2 (sp2gamma p q k1 k2)) k1
    obtain ⟨t12, wb, e12⟩ := subproblem1_ok q (sp2c p q k1 k2 (-sp2gamma p q k1 k2)) k1
    obtain ⟨t21, wc, e21⟩ := subproblem1_ok p (sp2c p q k1 k2 (sp2gamma p q k1 k2)) k2
    obtain ⟨t22, wd, e22⟩ := subproblem1_ok p (sp2c p q k1 k2 (-sp2gamma p q k1 k2)) k2
    refine ⟨t11, wa, t12, wb, t21, wc, t22, wd, e11, e12, e21, e22, ?_⟩
    unfold subproblem2
    rw [if_neg h1, if_neg h2, if_neg h3, e11]
    dsimp only
    rw [e12]
    dsimp only
    rw [e21]
    dsimp only
    rw [e22]

theorem c5_witness :
    subproblem2 ![1,0,0] ![1,0,0] ![0,0,1] ![0,0,1] =
      Except.ok ([], ["No solution - k1 != k2"]) :=
  (c5_subproblem2_branches ![1,0,0] ![1,0,0] ![0,0,1] ![0,0,1]).1 (by
    rw [show sp2k12 ![0,0,1] ![0,0,1] = 1 from by unfold sp2k12 dotV; norm_num]
    unfold eps
    norm_num)

lemma projPerp_e1_e3 : projPerp ![1,0,0] ![0,0,1] = ![1,0,0] := by
  unfold projPerp
  rw [show dotV ![1,0,0] ![0,0,1] = 0 from by unfold dotV; norm_num]
  simp

lemma dotV_e1_e1 : dotV ![1,0,0] ![1,0,0] = 1 := by unfold dotV; norm_num

lemma vnorm_e1 : vnorm ![1,0,0] = 1 := by
  unfold vnorm
  rw [dotV_e1_e1]
  exact Real.sqrt_one

lemma sp3dpsq_e1_e3 (d : ℝ) : sp3dpsq ![1,0,0] ![1,0,0] ![0,0,1] d = d ^ 2 := by
  unfold sp3dpsq
  rw [show dotV ![0,0,1] (![1,0,0] + ![1,0,0]) = 0 from by unfold dotV; norm_num]
  norm_num

lemma sp3bb_e1_e3 (d : ℝ) :
    sp3bb ![1,0,0] ![1,0,0] ![0,0,1] d = (d ^ 2 - 2) / 2 := by
  unfold sp3bb
  rw [projPerp_e1_e3, dotV_e1_e1, vnorm_e1, sp3dpsq_e1_e3]
  ring

/-- C6 counterexample: with `p = q = [1,0,0]`, `k = [0,0,1]`, `d = 0` the
law-of-cosines ratio is exactly `-1`, and the code returns TWO solutions
`[pi, -pi]` (since `phi = arccos(-1) = pi > 0`), so "ratio exactly ±1
returns exactly one solution" is false for ratio `-1`. -/
theorem c6_counterexample :
    sp3bb ![1,0,0] ![1,0,0] ![0,0,1] 0 = -1 ∧
    subproblem3 ![1,0,0] ![1,0,0] ![0,0,1] 0 =
      Except.ok ([Real.pi, -Real.pi], []) := by
  have hbb : sp3bb ![1,0,0] ![1,0,0] ![0,0,1] 0 = -1 := by
    rw [sp3bb_e1_e3]
    norm_num
  have hunit : unitize ![1,0,0] = ![1,0,0] := by
    unfold unitize
    rw [vnorm_e1]
    simp
  have hsp1 : subproblem1 ![1,0,0] ![1,0,0] ![0,0,1] = Except.ok (0, []) := by
    unfold subproblem1
    rw [if_pos]
    rw [sub_self]
    rw [show vnorm 0 = 0 from by
      unfold vnorm dotV
      simp]
    exact Real.sqrt_pos.mpr eps_pos
  refine ⟨hbb, ?_⟩
  unfold subproblem3
  rw [if_neg (by rw [sp3dpsq_e1_e3, hbb]; norm_num)]
  rw [projPerp_e1_e3, hunit, hsp1]
  dsimp only
  rw [hbb, Real.arccos_neg_one]
  rw [if_pos (by rw [abs_of_nonneg Real.pi_pos.le]; exact Real.pi_pos)]
  norm_num

/-- C6 amended: `subproblem3` returns empty-with-warning when `dpsq < 0` or
the law-of-cosines ratio has magnitude `> 1`; otherwise with `theta` from
Subproblem 1 and `phi = arccos(ratio)` it returns the single solution
`[theta]` exactly when the ratio is `1` (so `phi = 0`), and the two
solutions `[theta + phi, theta - phi]` for every other in-range ratio —
including ratio exactly `-1`, where it returns `[theta + pi, theta - pi]`. -/
theorem c6_subproblem3_branches (p q k : V3) (d : ℝ) :
    (sp3dpsq p q k d < 0 ∨ |sp3bb p q k d| > 1 →
      subproblem3 p q k d =
        Except.ok ([], ["No solution - no rotation can achieve specified distance"])) ∧
    (¬(sp3dpsq p q k d < 0 ∨ |sp3bb p q k d| > 1) →
      ∃ t w,
        subproblem1 (unitize (projPerp p k)) (unitize (projPerp q k)) k =
            Except.ok (t, w) ∧
        (sp3bb p q k d = 1 → subproblem3 p q k d = Except.ok ([t], w)) ∧
        (sp3bb p q k d ≠ 1 →
          subproblem3 p q k d =
            Except.ok ([t + Real.arccos (sp3bb p q k d),
                        t - Real.arccos (sp3bb p q k d)], w))) := by
  constructor
  · intro h
    unfold subproblem3
    rw [if_pos h]
  · intro h
    obtain ⟨t, w, e⟩ := subproblem1_ok (unitize (projPerp p k)) (unitize (projPerp q k)) k
    refine ⟨t, w, e, ?_, ?_⟩
    · intro hb1
      unfold subproblem3
      rw [if_neg h, e]
      dsimp only
      rw [hb1, Real.arccos_one]
      rw [if_neg (by norm_num)]
    · intro hb1
      have hble : |sp3bb p q k d| ≤ 1 := by
        rcases not_or.mp h with ⟨-, h2⟩
        exact not_lt.mp h2
      have hblt : sp3bb p q k d < 1 :=
        lt_of_le_of_ne (le_of_abs_le hble) hb1
      have hphi : 0 < Real.arccos (sp3bb p q k d) := Real.arccos_pos.mpr hblt
      unfold subproblem3
      rw [if_neg h, e]
      dsimp only
      rw [if_pos (by rw [abs_of_nonneg hphi.le]; exact hphi)]

theorem c6_witness :
    subproblem3 ![1,0,0] ![1,0,0] ![0,0,1] 10 =
      Except.ok ([], ["No solution - no rotation can achieve specified distance"]) :=
  (c6_subproblem3_branches ![1,0,0] ![1,0,0] ![0,0,1] 10).1
    (Or.inr (by rw [sp3bb_e1_e3]; norm_num))
lemma jLoop_done {hi pOi : List V3} {pOT : V3} {jt : List ℕ} {th : List ℝ}
    {i j : ℕ} {J : List V6} (h : ¬ i < jt.length) :
    jLoop hi pOi pOT jt th i j J = Except.ok J := by
  rw [jLoop]
  rw [dif_neg h]

lemma jLoop_step3 {hi pOi : List V3} {pOT : V3} {jt : List ℕ} {th : List ℝ}
    {i j : ℕ} {J : List V6} {h2 h0 po2 : V3} {t2 : ℝ}
    (hjt : jt.get? i = some 3)
    (hh2 : hi.get? (i + 2) = some h2) (ht2 : th.get? (i + 2) = some t2)
    (hh0 : hi.get? i = some h0) (hpo2 : pOi.get? (i + 2) = some po2) :
    jLoop hi pOi pOT jt th i j J =
      jLoop hi pOi pOT jt th (i + 3) (j + 2)
        (((J.set j (setLin (J.getD j 0) ((rot h2 t2).mulVec h0))).set (j + 1)
            (mkCol6 h2 ((hat h2).mulVec (pOT - po2)))).dropLast) := by
  obtain ⟨hlt, hget⟩ := List.get?_eq_some.mp hjt
  conv_lhs => rw [jLoop]
  rw [dif_pos hlt]
  simp only [hget, hh2, ht2, hh0, hpo2]
  norm_num

lemma jLoop_step0 {hi pOi : List V3} {pOT : V3} {jt : List ℕ} {th : List ℝ}
    {i j : ℕ} {J : List V6} {h po : V3}
    (hjt : jt.get? i = some 0)
    (hh : hi.get? i = some h) (hpo : pOi.get? i = some po) :
    jLoop hi pOi pOT jt th i j J =
      jLoop hi pOi pOT jt th (i + 1) (j + 1)
        (J.set j (mkCol6 h ((hat h).mulVec (pOT - po)))) := by
  obtain ⟨hlt, hget⟩ := List.get?_eq_some.mp hjt
  conv_lhs => rw [jLoop]
  rw [dif_pos hlt]
  simp only [hget, hh, hpo]
  norm_num

lemma jLoop_step1 {hi pOi : List V3} {pOT : V3} {jt : List ℕ} {th : List ℝ}
    {i j : ℕ} {J : List V6} {h : V3}
    (hjt : jt.get? i = some 1)
    (hh : hi.get? i = some h) :
    jLoop hi pOi pOT jt th i j J =
      jLoop hi pOi pOT jt th (i + 1) (j + 1) (J.set j (setLin (J.getD j 0) h)) := by
  obtain ⟨hlt, hget⟩ := List.get?_eq_some.mp hjt
  conv_lhs => rw [jLoop]
  rw [dif_pos hlt]
  simp only [hget, hh]
  norm_num

lemma jLoop_step_other {hi pOi : List V3} {pOT : V3} {jt : List ℕ} {th : List ℝ}
    {i j : ℕ} {J : List V6} {t : ℕ}
    (hjt : jt.get? i = some t) (h0 : t ≠ 0) (h1 : t ≠ 1) (h3 : t ≠ 3) :
    jLoop hi pOi pOT jt th i j J = jLoop hi pOi pOT jt th (i + 1) (j + 1) J := by
  obtain ⟨hlt, hget⟩ := List.get?_eq_some.mp hjt
  conv_lhs => rw [jLoop]
  rw [dif_pos hlt]
  simp only [hget]
  rw [if_neg h0, if_neg h1, if_neg h3]

lemma jLoop_no3_ok {hi pOi : List V3} {pOT : V3} {jt : List ℕ} {th : List ℝ}
    (hlen : hi.length = jt.length) (hplen : jt.length ≤ pOi.length) :
    ∀ (n i j : ℕ) (J : List V6), jt.length ≤ i + n →
      (∀ m, i ≤ m → jt.get? m ≠ some 3) →
      ∃ J2, jLoop hi pOi pOT jt th i j J = Except.ok J2 ∧ J2.length = J.length := by
  intro n
  induction n with
  | zero =>
    intro i j J hn h3
    rw [jLoop_done (by omega)]
    exact ⟨J, rfl, rfl⟩
  | succ n ih =>
    intro i j J hn h3
    by_cases hlt : i < jt.length
    · have hts : jt.get? i = some (jt.get ⟨i, hlt⟩) := List.get?_eq_get hlt
      have ht3 : jt.get ⟨i, hlt⟩ ≠ 3 := by
        intro hc
        exact h3 i le_rfl (by rw [hts, hc])
      have hid : i < hi.length := by omega
      have hpd : i < pOi.length := by omega
      by_cases ht0 : jt.get ⟨i, hlt⟩ = 0
      · rw [jLoop_step0 (by rw [hts, ht0]) (List.get?_eq_get hid) (List.get?_eq_get hpd)]
        obtain ⟨J2, hJ2, hl2⟩ := ih (i + 1) (j + 1) _ (by omega)
          (fun m hm => h3 m (by omega))
        exact ⟨J2, hJ2, by rw [hl2, List.length_set]⟩
      · by_cases ht1 : jt.get ⟨i, hlt⟩ = 1
        · rw [jLoop_step1 (by rw [hts, ht1]) (List.get?_eq_get hid)]
          obtain ⟨J2, hJ2, hl2⟩ := ih (i + 1) (j + 1) _ (by omega)
            (fun m hm => h3 m (by omega))
          exact ⟨J2, hJ2, by rw [hl2, List.length_set]⟩
        · rw [jLoop_step_other hts ht0 ht1 ht3]
          exact ih (i + 1) (j + 1) J (by omega) (fun m hm => h3 m (by omega))
    · rw [jLoop_done hlt]
      exact ⟨J, rfl, rfl⟩

lemma jLoop_no3_until {hi pOi : List V3} {pOT : V3} {jt : List ℕ} {th : List ℝ}
    (hlen : hi.length = jt.length) (hplen : jt.length ≤ pOi.length) :
    ∀ (n i j : ℕ) (J : List V6) (m : ℕ), i ≤ m → m ≤ i + n → m ≤ jt.length →
      (∀ l, i ≤ l → l < m → jt.get? l ≠ some 3) →
      ∃ J2, jLoop hi pOi pOT jt th i j J = jLoop hi pOi pOT jt th m (j + (m - i)) J2 ∧
        J2.length = J.length := by
  intro n
  induction n with
  | zero =>
    intro i j J m him hmn hml h3
    have : m = i := by omega
    subst this
    exact ⟨J, by norm_num, rfl⟩
  | succ n ih =>
    intro i j J m him hmn hml h3
    rcases eq_or_lt_of_le him with heq | hltm
    · subst heq
      exact ⟨J, by norm_num, rfl⟩
    · have hlt : i < jt.length := by omega
      have hts : jt.get? i = some (jt.get ⟨i, hlt⟩) := List.get?_eq_get hlt
      have ht3 : jt.get ⟨i, hlt⟩ ≠ 3 := by
        intro hc
        exact h3 i le_rfl hltm (by rw [hts, hc])
      have hid : i < hi.length := by omega
      have hpd : i < pOi.length := by omega
      have harith : (j + 1) + (m - (i + 1)) = j + (m - i) := by omega
      by_cases ht0 : jt.get ⟨i, hlt⟩ = 0
      · rw [jLoop_step0 (by rw [hts, ht0]) (List.get?_eq_get hid) (List.get?_eq_get hpd)]
        obtain ⟨J2, hJ2, hl2⟩ := ih (i + 1) (j + 1) _ m (by omega) (by omega) hml
          (fun l hl hlm => h3 l (by omega) hlm)
        rw [harith] at hJ2
        exact ⟨J2, hJ2, by rw [hl2, List.length_set]⟩
      · by_cases ht1 : jt.get ⟨i, hlt⟩ = 1
        · rw [jLoop_step1 (by rw [hts, ht1]) (List.get?_eq_get hid)]
          obtain ⟨J2, hJ2, hl2⟩ := ih (i + 1) (j + 1) _ m (by omega) (by omega) hml
            (fun l hl hlm => h3 l (by omega) hlm)
          rw [harith] at hJ2
          exact ⟨J2, hJ2, by rw [hl2, List.length_set]⟩
        · rw [jLoop_step_other hts ht0 ht1 ht3]
          obtain ⟨J2, hJ2, hl2⟩ := ih (i + 1) (j + 1) J m (by omega) (by omega) hml
            (fun l hl hlm => h3 l (by omega) hlm)
          rw [harith] at hJ2
          exact ⟨J2, hJ2, hl2⟩

lemma jLoop_step3_err {hi pOi : List V3} {pOT : V3} {jt : List ℕ} {th : List ℝ}
    {i j : ℕ} {J : List V6}
    (hjt : jt.get? i = some 3) (hh2 : hi.get? (i + 2) = none) :
    jLoop hi pOi pOT jt th i j J = Except.error "index out of range" := by
  obtain ⟨hlt, hget⟩ := List.get?_eq_some.mp hjt
  conv_lhs => rw [jLoop]
  rw [dif_pos hlt]
  simp only [hget, hh2]
  norm_num

lemma jacPass1_lengths (ts : List ℕ) :
    ∀ (hs : List V3) (ths : List ℝ) (pos : List V3) (R : Mat3) (p : V3),
      ts.length = hs.length → ts.length = ths.length → ts.length = pos.length →
      (jacPass1 ts hs ths pos R p).1.length = ts.length ∧
      (jacPass1 ts hs ths pos R p).2.1.length = ts.length := by
  induction ts with
  | nil => intro hs ths pos R p h1 h2 h3; exact ⟨rfl, rfl⟩
  | cons t ts ih =>
    intro hs ths pos R p h1 h2 h3
    cases hs with
    | nil => simp at h1
    | cons h hs =>
      cases ths with
      | nil => simp at h2
      | cons th ths =>
        cases pos with
        | nil => simp at h3
        | cons po pos =>
          simp only [jacPass1, List.length_cons]
          have hr := ih hs ths pos
            (if t = 0 ∨ t = 2 then R * rot h th else R)
            ((if t = 1 ∨ t = 3 then p + th • R.mulVec h else p) +
              (if t = 0 ∨ t = 2 then R * rot h th else R).mulVec po)
            (by simpa using h1) (by simpa using h2) (by simpa using h3)
          exact ⟨by rw [hr.1], by rw [hr.2]⟩

lemma robotjacobian_eq_core (r : Robot) (theta : List ℝ)
    (hg : ∀ mn mx, r.joint_min = some mn → r.joint_max = some mx →
      limitsOk mn mx theta) :
    robotjacobian r theta = robotjacobianCore r theta := by
  unfold robotjacobian
  cases hmn : r.joint_min with
  | none => rfl
  | some mn =>
    cases hmx : r.joint_max with
    | none => rfl
    | some mx =>
      dsimp only
      rw [if_pos (hg mn mx hmn hmx)]

/-- C3 counterexample: the 2-joint chain [3, 2] — exactly one adjacent
mobile translational/rotational pair — does not yield a 6 x 1 Jacobian: the
type-3 branch reads `hi[:,[i+2]]` = `hi[:,[2]]`, which is out of bounds for
N = 2, so `robotjacobian` raises IndexError instead. -/
theorem c3_counterexample :
    robotjacobian ⟨[![1,0,0], ![0,0,1]], [0, 0, 0], [3, 2], none, none, none⟩ [0, 0] =
      Except.error "index out of range" := by
  unfold robotjacobian
  dsimp only
  unfold robotjacobianCore
  dsimp only [List.tail_cons, List.headD_cons]
  have hlen := (jacPass1_lengths [3, 2] [![1,0,0], ![0,0,1]] [0, 0] [0, 0] 1 0
    rfl rfl rfl).1
  exact jLoop_step3_err rfl (List.get?_eq_none.mpr (by rw [hlen]; norm_num))

/-- C3 amended: for a valid model with matching lengths and a passing (or
absent) limit check, `robotjacobian` returns a 6 x N Jacobian (N columns)
when no joint has type 3 (MobilePlanarTranslational); when exactly one
type-3 joint is present at index `i` with its partner index `i+2` still in
bounds, it returns 6 x (N-1).  (A type-3 joint whose partner index `i+2`
falls out of bounds — e.g. an adjacent trailing [3, 2] pair — instead fails
with an IndexError, see the counterexample.) -/
theorem c3_jacobian_shape (r : Robot) (theta : List ℝ) (N : ℕ)
    (hg : ∀ mn mx, r.joint_min = some mn → r.joint_max = some mx →
      limitsOk mn mx theta)
    (hN : r.joint_type.length = N) (hH : r.H.length = N) (hth : theta.length = N)
    (hP : r.P.length = N + 1) :
    ((∀ t ∈ r.joint_type, t ≠ 3) →
      ∃ J, robotjacobian r theta = Except.ok J ∧ J.length = N) ∧
    (∀ A B : List ℕ, r.joint_type = A ++ 3 :: B → 3 ∉ A → 3 ∉ B →
      A.length + 3 ≤ N →
      ∃ J, robotjacobian r theta = Except.ok J ∧ J.length = N - 1) := by
  rw [robotjacobian_eq_core r theta hg]
  unfold robotjacobianCore
  have hPt : r.P.tail.length = N := by
    rw [List.length_tail, hP]
    omega
  have hpl := jacPass1_lengths r.joint_type r.H theta r.P.tail 1 (r.P.headD 0)
    (by rw [hN, hH]) (by rw [hN, hth]) (by rw [hN, hPt])
  have hhi : (jacPass1 r.joint_type r.H theta r.P.tail 1 (r.P.headD 0)).1.length =
      r.joint_type.length := hpl.1
  have hpOi : r.joint_type.length ≤
      (r.P.headD 0 :: (jacPass1 r.joint_type r.H theta r.P.tail 1 (r.P.headD 0)).2.1).length := by
    rw [List.length_cons, hpl.2]
    omega
  constructor
  · intro h3
    have h3m : ∀ m, 0 ≤ m → r.joint_type.get? m ≠ some 3 :=
      fun m _ hc => h3 3 (List.get?_mem hc) rfl
    obtain ⟨J2, hJ2, hl2⟩ := jLoop_no3_ok hhi hpOi N 0 0
      (List.replicate r.joint_type.length 0) (by omega) h3m
    exact ⟨J2, hJ2, by rw [hl2, List.length_replicate, hN]⟩
  · intro A B hAB hA hB hlen3
    have hi0lt : A.length + 3 ≤ r.joint_type.length := by omega
    have hjt_i0 : r.joint_type.get? A.length = some 3 := by
      rw [hAB, List.get?_append_right le_rfl]
      simp
    have hpre : ∀ l, 0 ≤ l → l < A.length → r.joint_type.get? l ≠ some 3 := by
      intro l _ hl hc
      rw [hAB, List.get?_append hl] at hc
      exact hA (List.get?_mem hc)
    obtain ⟨J1, hJ1, hl1⟩ := jLoop_no3_until hhi hpOi A.length 0 0
      (List.replicate r.joint_type.length 0) A.length (Nat.zero_le _) (by omega)
      (by omega) hpre
    rw [show 0 + (A.length - 0) = A.length from by omega] at hJ1
    rw [hJ1]
    have hh2 : (jacPass1 r.joint_type r.H theta r.P.tail 1 (r.P.headD 0)).1.get?
        (A.length + 2) =
        some ((jacPass1 r.joint_type r.H theta r.P.tail 1 (r.P.headD 0)).1.get
          ⟨A.length + 2, by omega⟩) :=
      List.get?_eq_get (by omega)
    have ht2 : theta.get? (A.length + 2) =
        some (theta.get ⟨A.length + 2, by omega⟩) :=
      List.get?_eq_get (by omega)
    have hh0 : (jacPass1 r.joint_type r.H theta r.P.tail 1 (r.P.headD 0)).1.get?
        A.length =
        some ((jacPass1 r.joint_type r.H theta r.P.tail 1 (r.P.headD 0)).1.get
          ⟨A.length, by omega⟩) :=
      List.get?_eq_get (by omega)
    have hpo2 : (r.P.headD 0 ::
          (jacPass1 r.joint_type r.H theta r.P.tail 1 (r.P.headD 0)).2.1).get?
        (A.length + 2) =
        some ((r.P.headD 0 ::
          (jacPass1 r.joint_type r.H theta r.P.tail 1 (r.P.headD 0)).2.1).get
          ⟨A.length + 2, by
            rw [List.length_cons, hpl.2]
            omega⟩) :=
      List.get?_eq_get (by
        rw [List.length_cons, hpl.2]
        omega)
    rw [jLoop_step3 hjt_i0 hh2 ht2 hh0 hpo2]
    have hpost : ∀ m, A.length + 3 ≤ m → r.joint_type.get? m ≠ some 3 := by
      intro m hm hc
      rw [hAB, List.get?_append_right (by omega)] at hc
      rw [show m - A.length = (m - A.length - 1) + 1 from by omega] at hc
      rw [List.get?_cons_succ] at hc
      exact hB (List.get?_mem hc)
    obtain ⟨J3, hJ3, hl3⟩ := jLoop_no3_ok hhi hpOi N (A.length + 3) (A.length + 2)
      (((J1.set A.length _).set (A.length + 1) _).dropLast) (by omega) hpost
    refine ⟨J3, hJ3, ?_⟩
    rw [hl3, List.length_dropLast, List.length_set, List.length_set, hl1,
      List.length_replicate, hN]

theorem c3_witness :
    ∃ J, robotjacobian ⟨[![0,0,1]], [0, 0], [0], none, none, none⟩ [0] =
        Except.ok J ∧ J.length = 1 :=
  (c3_jacobian_shape ⟨[![0,0,1]], [0, 0], [0], none, none, none⟩ [0] 1
      (by intro mn mx h hx; simp at h) rfl rfl rfl rfl).1
    (by intro t ht; rw [List.mem_singleton] at ht; omega)

/-- C2 amended: the type-3 (MobilePlanarTranslational) branch of the
column loop pairs joint `i` with the joint at index `i+2` and emits TWO
column writes: `rot(h[i+2], theta[i+2])·h[i]` into the LINEAR rows of column
`j`, and the rotational column `[h[i+2]; hat(h[i+2])·(pOT - pOi[i+2])]` into
column `j+1`; it then deletes the final column of `J` and advances the joint
index by 3 and the column index by 2 (not by 2 and 2, and not as one
combined column — see the counterexample). -/
theorem c2_mobile_branch_semantics (hi pOi : List V3) (pOT : V3) (jt : List ℕ)
    (th : List ℝ) (i j : ℕ) (J : List V6) (h2 h0 po2 : V3) (t2 : ℝ)
    (hjt : jt.get? i = some 3)
    (hh2 : hi.get? (i + 2) = some h2) (ht2 : th.get? (i + 2) = some t2)
    (hh0 : hi.get? i = some h0) (hpo2 : pOi.get? (i + 2) = some po2) :
    jLoop hi pOi pOT jt th i j J =
      jLoop hi pOi pOT jt th (i + 3) (j + 2)
        (((J.set j (setLin (J.getD j 0) ((rot h2 t2).mulVec h0))).set (j + 1)
            (mkCol6 h2 ((hat h2).mulVec (pOT - po2)))).dropLast) :=
  jLoop_step3 hjt hh2 ht2 hh0 hpo2

theorem c2_witness :
    jLoop [![1,0,0], ![0,1,0], ![0,0,1]] [0, 0, 0, 0] 0 [3, 3, 2] [0, 0, 0] 0 0
        (List.replicate 3 0) =
      jLoop [![1,0,0], ![0,1,0], ![0,0,1]] [0, 0, 0, 0] 0 [3, 3, 2] [0, 0, 0] 3 2
        ((((List.replicate 3 0).set 0 (setLin ((List.replicate 3 (0:V6)).getD 0 0)
            ((rot ![0,0,1] 0).mulVec ![1,0,0]))).set 1
            (mkCol6 ![0,0,1] ((hat ![0,0,1]).mulVec ((0:V3) - 0)))).dropLast) :=
  c2_mobile_branch_semantics _ _ _ _ _ 0 0 _ _ _ _ _ rfl rfl rfl rfl rfl

/-- C2 counterexample: on the concrete chain jt = [3,3,2] (axes x,y,z, all
offsets zero, theta = 0) the code returns the two columns
`[0,0,0,1,0,0]` (translational contribution in the LINEAR rows of the first
pair column) and `[0,0,1,0,0,0]` (rotational column), and NO column equals
the claim's single combined column `[h[2] + rot(h[2],0)·h[0]; 0] =
[1,0,1,0,0,0]` — so the pair does not contribute "exactly one combined
column" with the translational part in the angular rows. -/
theorem c2_counterexample :
    robotjacobian ⟨[![1,0,0], ![0,1,0], ![0,0,1]], [0, 0, 0, 0], [3, 3, 2],
        none, none, none⟩ [0, 0, 0] =
      Except.ok [![0,0,0,1,0,0], ![0,0,1,0,0,0]] ∧
    (∀ c ∈ [(![0,0,0,1,0,0] : V6), ![0,0,1,0,0,0]], c ≠ ![1,0,1,0,0,0]) := by
  have hpass : jacPass1 [3, 3, 2] [![1,0,0], ![0,1,0], ![0,0,1]] [0, 0, 0]
      [0, 0, 0] 1 0 =
      ([![1,0,0], ![0,1,0], ![0,0,1]], [(0:V3), 0, 0], 0) := by
    norm_num [jacPass1, rot_zero, Matrix.one_mulVec, Matrix.mulVec_zero]
  have h1 : setLin ((List.replicate 3 (0:V6)).getD 0 0)
      ((rot ![0,0,1] (0:ℝ)).mulVec ![1,0,0]) = ![0,0,0,1,0,0] := by
    rw [rot_zero, Matrix.one_mulVec]
    funext x
    fin_cases x <;> simp [setLin]
  have h2 : mkCol6 ![0,0,1] ((hat ![0,0,1]).mulVec ((0:V3) - 0)) =
      ![0,0,1,0,0,0] := by
    rw [sub_zero, Matrix.mulVec_zero]
    funext x
    fin_cases x <;> simp [mkCol6]
  constructor
  · unfold robotjacobian
    dsimp only
    unfold robotjacobianCore
    dsimp only [List.tail_cons, List.headD_cons]
    rw [hpass]
    dsimp only
    have hrepl : List.replicate ([3, 3, 2] : List ℕ).length (0:V6) =
        List.replicate 3 0 := rfl
    rw [hrepl]
    rw [@jLoop_step3 [![1,0,0], ![0,1,0], ![0,0,1]] [0, 0, 0, 0] 0 [3, 3, 2]
      [0, 0, 0] 0 0 (List.replicate 3 0) ![0,0,1] ![1,0,0] 0 0 rfl rfl rfl rfl rfl]
    rw [jLoop_done (by norm_num)]
    rw [h1, h2]
    rfl
  · intro c hc
    simp only [List.mem_cons, List.not_mem_nil, or_false] at hc
    rcases hc with rfl | rfl
    · intro heq
      have h0 := congrFun heq 0
      simp at h0
    · intro heq
      have h0 := congrFun heq 0
      simp at h0
end
